import Mathlib

/-!
Verification development for the clarity-js DOM mirroring core.

Shallow embedding of:
- src/packages/clarity-js/src/insight/snapshot.ts  (namespace Snap)
- src/packages/clarity-js/src/layout/node.ts        (namespace Layout)

Live DOM nodes are modelled by numeric references (Nat).  JS objects used
as ordered string maps are modelled as association lists with JS-object
upsert semantics (insertion order preserved, assignment overwrites in
place).  WeakMap-based registries are association lists keyed by node
reference.  Fallible paths return Except; the JS thrown value is an
`Option String` holding the error's name (none models a thrown null,
matching the source's `e ? e.name : null` guards).
-/

namespace Clarity

/-- Association-list lookup (models `map.get(k)` / `k in obj`). -/
def look {α β : Type} [DecidableEq α] : List (α × β) → α → Option β
  | [], _ => none
  | (k, v) :: r, a => if k = a then some v else look r a

/-- JS object property assignment: overwrite in place if the key exists,
otherwise append (insertion order preserved). -/
def aset {α β : Type} [DecidableEq α] : List (α × β) → α → β → List (α × β)
  | [], k, v => [(k, v)]
  | (k0, v0) :: r, k, v => if k0 = k then (k0, v) :: r else (k0, v0) :: aset r k v

/-- Whitespace for the purposes of `String.prototype.trim()`. -/
def isWs (c : Char) : Bool :=
  c = ' ' ∨ c = '\t' ∨ c = '\n' ∨ c = '\r'

/-- JS `String.prototype.trim()`, modelled structurally over the
character list: strip leading and trailing whitespace. -/
def jsTrim (s : String) : String :=
  String.mk (((s.data.dropWhile isWs).reverse.dropWhile isWs).reverse)

theorem string_len_zero (s : String) : s.length = 0 ↔ s = "" := by
  cases s with
  | mk data =>
    constructor
    · intro h
      simp [String.length] at h
      simp [h]
    · intro h
      rw [h]
      rfl

namespace Snap

/-- A record pushed into `values` by snapshot.ts `add`
(`{ id, parent, previous, children: [], data, ... }`; the constant
`children/selector/hash/region/metadata` fields carry no information
relevant to the traversal and are omitted; `data` is inlined as
`tag/attributes/value`). -/
structure Record where
  id : Nat
  parent : Option Nat := none
  previous : Option Nat := none
  tag : String
  attributes : Option (List (String × String)) := none
  value : Option String := none
deriving DecidableEq, Repr

/-- Module-level state of snapshot.ts: `idMap` (WeakMap node=>id),
`index` (next id to allocate, initialised to 1 at module load), and
`values` (the pending output record buffer).  The default values are the
state right after module load / `reset()`. -/
structure State where
  idMap : List (Nat × Nat) := []
  index : Nat := 1
  values : List Record := []
deriving DecidableEq, Repr

/-- snapshot.ts `getId` on a non-null node: return the existing id, or
allocate `index` for the node and increment `index`. -/
def getId (n : Nat) (s : State) : Nat × State :=
  match look s.idMap n with
  | some i => (i, s)
  | none => (s.index, { s with idMap := (n, s.index) :: s.idMap, index := s.index + 1 })

/-- snapshot.ts `getId` including the `node === null` early return. -/
def getIdN : Option Nat → State → Option Nat × State
  | none, s => (none, s)
  | some n, s => ((getId n s).1, (getId n s).2)

/-- DOM node kinds distinguished by the switch in snapshot.ts `traverse`
(`Node.DOCUMENT_TYPE_NODE`, `Node.TEXT_NODE`, `Node.ELEMENT_NODE`), a
document node, and the catch-all for every other `nodeType`. -/
inductive NType where
  | doc
  | doctype
  | text
  | element
  | other
deriving DecidableEq, Repr

/-- Per-node data visible to the snapshot traversal.  `ref` is the
node's physical identity (the WeakMap key).  `dtName/publicId/systemId`
are the DocumentType fields; `nodeValue` the text payload. -/
structure NData where
  ref : Nat
  ntype : NType
  tagName : String := ""
  nodeValue : Option String := none
  attrs : List (String × String) := []
  dtName : String := ""
  publicId : String := ""
  systemId : String := ""
deriving DecidableEq, Repr

/-- A live DOM subtree: node data plus child list in document order.
`firstChild/nextSibling/parentElement/parentNode/previousSibling` of the
source are derived from this structure (the embedding assumes the
well-formed pointer structure of a real DOM tree). -/
inductive DomTree where
  | node : NData → List DomTree → DomTree

def dataOf : DomTree → NData
  | .node d _ => d

def kidsOf : DomTree → List DomTree
  | .node _ k => k

mutual

def treeSize : DomTree → Nat
  | .node _ kids => 1 + forestSize kids

def forestSize : List DomTree → Nat
  | [] => 0
  | t :: ts => treeSize t + forestSize ts

end

/-- A queue entry of `traverse`: the subtree together with the parent
reference (what `node.parentElement ? node.parentElement : node.parentNode`
resolves to for this node) and the previous-sibling reference. -/
structure Entry where
  t : DomTree
  parent : Option Nat := none
  prev : Option Nat := none

/-- Entries pushed for the children of a node: in document order, each
with the node as parent and the preceding child as previous sibling
(mirrors the `firstChild`/`nextSibling` push loop). -/
def chainEntries (p : Nat) : List DomTree → Option Nat → List Entry
  | [], _ => []
  | t :: ts, prev => { t := t, parent := some p, prev := prev } :: chainEntries p ts (some (dataOf t).ref)

def entryChildren (e : Entry) : List Entry :=
  chainEntries (dataOf e.t).ref (kidsOf e.t) none

def entSize (e : Entry) : Nat := treeSize e.t

def qSize (q : List Entry) : Nat := (q.map entSize).sum

/-- snapshot.ts `getAttributes`: copy every attribute into a fresh
object, in attribute order, with JS assignment semantics.  Note: no
deny-list is applied on this path. -/
def snapGetAttributes (attrs : List (String × String)) : List (String × String) :=
  attrs.foldl (fun o kv => aset o kv.1 kv.2) []

/-- JS truthiness of `idMap.get(parent)` (undefined or 0 are falsy;
`get` on a null key yields undefined). -/
def truthyId (s : State) (p : Option Nat) : Bool :=
  match p with
  | none => false
  | some n =>
    match look s.idMap n with
    | none => false
    | some i => i ≠ 0

/-- The `switch (node.nodeType)` of `traverse`: computes the local
`tag/attributes/value` variables (all initialised to null). -/
def classify (d : NData) (parent : Option Nat) (s : State) :
    Option String × Option (List (String × String)) × Option String :=
  match d.ntype with
  | .doctype =>
    -- tag = Constant.DocumentTag ("*D"); attrs = { name, publicId, systemId }
    (some "*D", some [("name", d.dtName), ("publicId", d.publicId), ("systemId", d.systemId)], none)
  | .text =>
    -- value = node.nodeValue; tag = idMap.get(parent) ? Constant.TextTag : tag
    (if truthyId s parent then some "*T" else none, none, d.nodeValue)
  | .element =>
    -- attributes = getAttributes(element); tag kept unless NOSCRIPT/SCRIPT/STYLE
    (if d.tagName = "NOSCRIPT" ∨ d.tagName = "SCRIPT" ∨ d.tagName = "STYLE" then none else some d.tagName,
     some (snapGetAttributes d.attrs), none)
  | _ => (none, none, none)

/-- snapshot.ts `add`: drop when the node or `data.tag` is falsy,
otherwise allocate/reuse the id and push a record (parent and previous
ids resolved through the registry after `getId(node)`). -/
def addSnap (ref : Nat) (parent prev : Option Nat) (tag : Option String)
    (attributes : Option (List (String × String))) (value : Option String) (s : State) : State :=
  match tag with
  | none => s
  | some tg =>
    if tg = "" then s
    else
      let p := getId ref s
      let s1 := p.2
      let parentId := match parent with
        | some pr => look s1.idMap pr
        | none => none
      let previous := match prev with
        | some pv => look s1.idMap pv
        | none => none
      { s1 with values := s1.values ++
          [{ id := p.1, parent := parentId, previous := previous, tag := tg,
             attributes := attributes, value := value }] }

/-- The body of `traverse`'s loop for one dequeued node: classify it and
commit it through `add`. -/
def processSnap (e : Entry) (s : State) : State :=
  let d := dataOf e.t
  let c := classify d e.parent s
  addSnap d.ref e.parent e.prev c.1 c.2.1 c.2.2 s

theorem treeSize_pos (t : DomTree) : 1 ≤ treeSize t := by
  cases t with
  | node d kids => simp [treeSize]

theorem qSize_append (a b : List Entry) : qSize (a ++ b) = qSize a + qSize b := by
  simp [qSize]

theorem qSize_chainEntries (p : Nat) (ts : List DomTree) (prev : Option Nat) :
    qSize (chainEntries p ts prev) = forestSize ts := by
  induction ts generalizing prev with
  | nil => simp [chainEntries, qSize, forestSize]
  | cons t ts ih =>
    have h := ih (some (dataOf t).ref)
    simp only [chainEntries, forestSize]
    simp [qSize, entSize] at h ⊢
    omega

theorem qSize_entryChildren (e : Entry) : qSize (entryChildren e) + 1 = entSize e := by
  cases e with
  | mk t parent prev =>
    cases t with
    | node d kids =>
      simp [entryChildren, qSize_chainEntries, entSize, treeSize, dataOf, kidsOf]
      omega

/-- snapshot.ts `traverse` loop: dequeue, enqueue children, process. -/
def traverseAux (q : List Entry) (s : State) : State :=
  match q with
  | [] => s
  | e :: rest => traverseAux (rest ++ entryChildren e) (processSnap e s)
termination_by qSize q
decreasing_by
  have h1 := qSize_entryChildren e
  have h2 := qSize_append rest (entryChildren e)
  simp [qSize] at *
  omega

/-- The order in which `traverse` dequeues and processes entries. -/
def visitOrder (q : List Entry) : List Entry :=
  match q with
  | [] => []
  | e :: rest => e :: visitOrder (rest ++ entryChildren e)
termination_by qSize q
decreasing_by
  have h1 := qSize_entryChildren e
  have h2 := qSize_append rest (entryChildren e)
  simp [qSize] at *
  omega

theorem qSize_bind (q : List Entry) :
    qSize (q.flatMap entryChildren) + q.length = qSize q := by
  induction q with
  | nil => simp [qSize]
  | cons e rest ih =>
    have h1 := qSize_entryChildren e
    simp only [List.flatMap_cons] at *
    rw [List.length_cons]
    have h2 := qSize_append (entryChildren e) (rest.flatMap entryChildren)
    simp [qSize] at *
    omega

/-- Level-by-level (breadth-first) order of a forest of entries: all
entries of the current level, then the levels below. -/
def levelOrder (q : List Entry) : List Entry :=
  match q with
  | [] => []
  | e :: rest => (e :: rest) ++ levelOrder ((e :: rest).flatMap entryChildren)
termination_by qSize q
decreasing_by
  have h := qSize_bind (e :: rest)
  simp only [List.length_cons] at h
  omega

/-- Processing a list of entries in order (fold of the loop body). -/
def applyEntries (l : List Entry) (s : State) : State :=
  l.foldl (fun s e => processSnap e s) s

theorem visitOrder_nil : visitOrder [] = [] := by
  simp [visitOrder]

theorem visitOrder_cons (e : Entry) (rest : List Entry) :
    visitOrder (e :: rest) = e :: visitOrder (rest ++ entryChildren e) := by
  simp [visitOrder]

theorem traverseAux_nil (s : State) : traverseAux [] s = s := by
  simp [traverseAux]

theorem traverseAux_cons (e : Entry) (rest : List Entry) (s : State) :
    traverseAux (e :: rest) s = traverseAux (rest ++ entryChildren e) (processSnap e s) := by
  simp [traverseAux]

theorem levelOrder_nil : levelOrder [] = [] := by
  simp [levelOrder]

theorem levelOrder_cons (e : Entry) (rest : List Entry) :
    levelOrder (e :: rest) = (e :: rest) ++ levelOrder ((e :: rest).flatMap entryChildren) := by
  rw [levelOrder]

/-- Round-robin queue processing equals taking the current entries first
and then continuing with all their children appended behind the rest. -/
theorem visitOrder_append (a b : List Entry) :
    visitOrder (a ++ b) = a ++ visitOrder (b ++ a.flatMap entryChildren) := by
  induction a generalizing b with
  | nil => simp
  | cons e a ih =>
    rw [List.cons_append, visitOrder_cons, List.append_assoc, ih (b ++ entryChildren e)]
    simp [List.append_assoc]

/-- The queue order of `traverse` is exactly breadth-first (level)
order. -/
theorem visitOrder_eq_levelOrder (q : List Entry) : visitOrder q = levelOrder q := by
  match q with
  | [] => simp [visitOrder_nil, levelOrder_nil]
  | e :: rest =>
    have h := visitOrder_append (e :: rest) []
    simp only [List.append_nil, List.nil_append] at h
    rw [h, visitOrder_eq_levelOrder ((e :: rest).flatMap entryChildren), levelOrder_cons]
termination_by qSize q
decreasing_by
  have h := qSize_bind (e :: rest)
  simp only [List.length_cons] at h
  omega

/-- The traversal is the fold of the loop body along its visit order. -/
theorem traverseAux_eq_applyEntries (q : List Entry) (s : State) :
    traverseAux q s = applyEntries (visitOrder q) s := by
  match q with
  | [] => simp [traverseAux_nil, visitOrder_nil, applyEntries]
  | e :: rest =>
    rw [traverseAux_cons, visitOrder_cons,
      traverseAux_eq_applyEntries (rest ++ entryChildren e) (processSnap e s)]
    simp [applyEntries]
termination_by qSize q
decreasing_by
  have h1 := qSize_entryChildren e
  have h2 := qSize_append rest (entryChildren e)
  simp [qSize] at *
  omega

/-- Entry for the traversal root (`traverse(document)`): the top node has
no parent and no previous sibling. -/
def rootEntry (t : DomTree) : Entry := { t := t }

/-- snapshot.ts `traverse(root)`. -/
def traverse (root : DomTree) (s : State) : State :=
  traverseAux [rootEntry root] s

/-- snapshot.ts `snapshot()`: clear the pending output buffer
(`values = []`) and walk the tree; the final `encode(Event.Snapshot)`
hands the buffer to the out-of-scope encoder and does not change the
mirroring state. -/
def snapshot (root : DomTree) (s : State) : State :=
  traverse root { s with values := [] }

theorem getId_preserves (n m i : Nat) (s : State) (h : look s.idMap m = some i) :
    look (getId n s).2.idMap m = some i := by
  unfold getId
  cases hn : look s.idMap n with
  | some j => simpa using h
  | none =>
    by_cases hnm : n = m
    · subst hnm; rw [hn] at h; exact absurd h (by simp)
    · simp [look, hnm, h]

theorem addSnap_preserves (ref : Nat) (parent prev : Option Nat) (tag : Option String)
    (attributes : Option (List (String × String))) (value : Option String) (s : State)
    (m i : Nat) (h : look s.idMap m = some i) :
    look (addSnap ref parent prev tag attributes value s).idMap m = some i := by
  unfold addSnap
  cases tag with
  | none => exact h
  | some tg =>
    by_cases htg : tg = ""
    · simp [htg, h]
    · simpa [htg] using getId_preserves ref m i s h

theorem processSnap_preserves (e : Entry) (s : State) (m i : Nat)
    (h : look s.idMap m = some i) :
    look (processSnap e s).idMap m = some i := by
  unfold processSnap
  exact addSnap_preserves _ _ _ _ _ _ _ _ _ h

theorem traverseAux_preserves (q : List Entry) (s : State) (m i : Nat)
    (h : look s.idMap m = some i) :
    look (traverseAux q s).idMap m = some i := by
  match q with
  | [] => simpa [traverseAux_nil] using h
  | e :: rest =>
    rw [traverseAux_cons]
    exact traverseAux_preserves (rest ++ entryChildren e) (processSnap e s) m i
      (processSnap_preserves e s m i h)
termination_by qSize q
decreasing_by
  have h1 := qSize_entryChildren e
  have h2 := qSize_append rest (entryChildren e)
  simp [qSize] at *
  omega

theorem getId_values (n : Nat) (s : State) : (getId n s).2.values = s.values := by
  unfold getId
  cases look s.idMap n <;> simp

/-- Registry lookup through a nullable node reference (models
`x ? idMap.get(x) : null`). -/
def lookOpt (s : State) (p : Option Nat) : Option Nat :=
  match p with
  | some n => look s.idMap n
  | none => none

/-- The records that processing one entry appends to `values` (either
nothing, when the computed tag is falsy, or exactly one record). -/
def emitOf (e : Entry) (s : State) : List Record :=
  let d := dataOf e.t
  let c := classify d e.parent s
  match c.1 with
  | none => []
  | some tg =>
    if tg = "" then []
    else
      let p := getId d.ref s
      [{ id := p.1, parent := lookOpt p.2 e.parent, previous := lookOpt p.2 e.prev,
         tag := tg, attributes := c.2.1, value := c.2.2 }]

/-- Each processed node only ever appends to the output buffer: the
simplified snapshot path has no update branch that could rewrite an
already-committed record. -/
theorem processSnap_values_eq (e : Entry) (s : State) :
    (processSnap e s).values = s.values ++ emitOf e s := by
  unfold processSnap emitOf addSnap
  cases hc : (classify (dataOf e.t) e.parent s).1 with
  | none => simp [hc]
  | some tg =>
    by_cases htg : tg = "" <;> simp [hc, htg, getId_values, lookOpt]

theorem processSnap_values (e : Entry) (s : State) :
    ∃ new, (processSnap e s).values = s.values ++ new :=
  ⟨emitOf e s, processSnap_values_eq e s⟩

theorem traverseAux_values (q : List Entry) (s : State) :
    ∃ new, (traverseAux q s).values = s.values ++ new := by
  match q with
  | [] => exact ⟨[], by simp [traverseAux_nil]⟩
  | e :: rest =>
    obtain ⟨n1, h1⟩ := processSnap_values e s
    obtain ⟨n2, h2⟩ := traverseAux_values (rest ++ entryChildren e) (processSnap e s)
    exact ⟨n1 ++ n2, by rw [traverseAux_cons, h2, h1, List.append_assoc]⟩
termination_by qSize q
decreasing_by
  have h1 := qSize_entryChildren e
  have h2 := qSize_append rest (entryChildren e)
  simp [qSize] at *
  omega

/-- A node that is already registered is still committed through the add
path: a new record is appended, reusing the already-assigned id (there
is no update of the earlier record). -/
theorem emitOf_known (e : Entry) (s : State) (i : Nat) (tg : String)
    (hi : look s.idMap (dataOf e.t).ref = some i)
    (hc : (classify (dataOf e.t) e.parent s).1 = some tg) (htg : tg ≠ "") :
    emitOf e s = [{ id := i, parent := lookOpt s e.parent, previous := lookOpt s e.prev,
                    tag := tg, attributes := (classify (dataOf e.t) e.parent s).2.1,
                    value := (classify (dataOf e.t) e.parent s).2.2 }] := by
  unfold emitOf
  have hg : getId (dataOf e.t).ref s = (i, s) := by unfold getId; rw [hi]
  simp [hc, htg, hg]

/-- `snapshot` is: clear the output buffer, then process the whole tree
in breadth-first (level) order. -/
theorem snapshot_eq_levelOrder (root : DomTree) (s : State) :
    snapshot root s = applyEntries (levelOrder [rootEntry root]) { s with values := [] } := by
  unfold snapshot traverse
  rw [traverseAux_eq_applyEntries, visitOrder_eq_levelOrder]

/-- `snapshot` never drops or rewrites an existing identity binding. -/
theorem snapshot_preserves (root : DomTree) (s : State) (m i : Nat)
    (h : look s.idMap m = some i) :
    look (snapshot root s).idMap m = some i := by
  unfold snapshot traverse
  exact traverseAux_preserves _ _ _ _ h

end Snap

namespace Layout

/-- Source of a processing request (layout types; values listed in the
spec: discovery, mutation-add, mutation-remove, attribute-change,
character-data). -/
inductive Source where
  | discover
  | childListAdd
  | childListRemove
  | attrChange
  | characterData
deriving DecidableEq, Repr

/-- Which Mirror Writer entry `dom[call]` dispatches to. -/
inductive Call where
  | add
  | update
deriving DecidableEq, Repr

/-- Dimension codes used by the META side channel. -/
inductive Dim where
  | metaTitle
  | metaType
  | generator
deriving DecidableEq, Repr

/-- Diagnostic code of the only internal log call in this file. -/
inductive Code where
  | cssRules
deriving DecidableEq, Repr

inductive Severity where
  | warning
deriving DecidableEq, Repr

/-- A `location`-like object (protocol/host/pathname). -/
structure Loc where
  protocol : String := ""
  host : String := ""
  pathname : String := ""
deriving DecidableEq, Repr

deriving instance DecidableEq for Except

/-- A CSSStyleSheet: accessing `cssRules` either yields the serialized
texts of the rules or raises (the error is its name; none models a
thrown null, per the source's `e ? e.name : null` guard). -/
structure Sheet where
  cssAccess : Except (Option String) (List String)
deriving DecidableEq, Repr

/-- DOM node kinds distinguished by node.ts's switch. -/
inductive LNType where
  | doctypeNode
  | documentNode
  | fragmentNode
  | textNode
  | elementNode
  | otherNode
deriving DecidableEq, Repr

/-- A live host node as seen by node.ts.  `ownerTop` models
`node.ownerDocument === document`; `svg` models
`namespaceURI === SvgNamespace`; `nativeShadow` the constructor probe
(`constructor.toString().indexOf("[native code]") >= 0`); `jsonOk`
whether `JSON.parse` succeeds on the script's text; `dataset` the keys
of the element's data-* attributes; `idAttr` the element's `id`
property. -/
structure HostNode where
  ntype : LNType
  tagName : String := ""
  nodeValue : Option String := none
  parentElement : Option Nat := none
  parentNode : Option Nat := none
  ownerTop : Bool := true
  attrs : List (String × String) := []
  inputValue : String := ""
  svg : Bool := false
  shadowRoot : Option Nat := none
  hostRef : Option Nat := none
  nativeShadow : Bool := false
  dtName : String := ""
  publicId : String := ""
  systemId : String := ""
  textContent : String := ""
  dataset : List String := []
  idAttr : String := ""
  sheet : Option Sheet := none
  jsonOk : Bool := true
  contentDocument : Option Nat := none
  contentWindow : Option Nat := none
  readyState : String := "complete"
  ownerLocation : Option Loc := none
deriving DecidableEq, Repr

/-- The host environment: node lookup plus the oracles node.ts consults
(`dom.iframe`, `dom.sameorigin`, anchor-based URL resolution, the
stylesheet whose ownerNode is a given LINK, the electron flag, and the
top location). -/
structure Host where
  nodes : Nat → Option HostNode
  topDoc : Nat := 0
  iframeOf : Nat → Option Nat := fun _ => none
  sameorigin : Nat → Bool := fun _ => false
  resolveUrl : String → Loc := fun _ => {}
  linkSheet : Nat → Option Sheet := fun _ => none
  electron : Bool := false
  location : Loc := {}

/-- The classified data handed to the Mirror Writer. -/
structure NodeData where
  tag : String
  attributes : Option (List (String × String)) := none
  value : Option String := none
deriving DecidableEq, Repr

/-- One `dom.add`/`dom.update` call, in order. -/
structure Emit where
  call : Call
  node : Nat
  parent : Option Nat := none
  data : NodeData
  source : Source
deriving DecidableEq, Repr

/-- One `internal.log` call. -/
structure LogEntry where
  code : Code
  severity : Severity
  detail : Option String := none
deriving DecidableEq, Repr

/-- Session state shared by node.ts and its collaborators: `tracked`
(`dom.has`), `store` (the committed record data read by `dom.get` and
patched by the BASE case), the identity registry (`idMap`/`index`), the
ordered Mirror Writer calls (`emits`), dimension logs, internal logs,
schema-consumer calls, `mutation.monitor`ed iframes, roots with
mutation/interaction observers, event-listener bindings (`bound`),
the iframe-to-content tracking map (`iframes`, read by
`dom.iframeContent`), `dom.parse` calls and `checkDocumentStyles`
calls. -/
structure LState where
  tracked : List Nat := []
  store : List (Nat × NodeData) := []
  idMap : List (Nat × Nat) := []
  index : Nat := 1
  emits : List Emit := []
  dims : List (Dim × String) := []
  logs : List LogEntry := []
  schemaCalls : Nat := 0
  monitored : List Nat := []
  observedM : List Nat := []
  observedI : List Nat := []
  bound : List Nat := []
  iframes : List (Nat × (Option Nat × Option Nat)) := []
  parses : List Nat := []
  styleChecks : List (Nat × Nat) := []
deriving DecidableEq, Repr

/-- Modelled from the spec: dom.ts is not under src/.  §4.1 Identity
Registry: `idFor(node)` allocates on first use, monotonic integer
allocation, never reassigns. -/
def allocId (n : Nat) (s : LState) : Nat × LState :=
  match look s.idMap n with
  | some i => (i, s)
  | none => (s.index, { s with idMap := (n, s.index) :: s.idMap, index := s.index + 1 })

/-- Modelled from the spec: dom.ts is not under src/.  §4.4 Mirror
Writer: allocate/reuse the id, record the committed data, emit a record;
empty-tag inputs are dropped silently. -/
def domWrite (call : Call) (node : Nat) (parent : Option Nat) (data : NodeData)
    (source : Source) (s : LState) : LState :=
  if data.tag = "" then s
  else
    let p := allocId node s
    let s1 := p.2
    { s1 with
      tracked := if node ∈ s1.tracked then s1.tracked else node :: s1.tracked,
      store := aset s1.store node data,
      emits := s1.emits ++
        [{ call := call, node := node, parent := parent, data := data, source := source }] }

/-- node.ts `observe`: no-op when the root is already tracked or already
has listeners, otherwise start the mutation watcher and the interaction
observer (which binds listeners) for this root. -/
def observe (root : Nat) (s : LState) : LState :=
  if root ∈ s.tracked ∨ root ∈ s.bound then s
  else { s with observedM := s.observedM ++ [root], observedI := s.observedI ++ [root],
                bound := s.bound ++ [root] }

/-- Modelled from the spec: dom.removeIFrame is not under src/.  §4.5:
remove both the frame and its content document from identity/content
tracking maps. -/
def removeIFrame (frame doc : Nat) (s : LState) : LState :=
  { s with iframes := s.iframes.filter (fun kv => kv.1 != frame),
           tracked := s.tracked.filter (fun n => n != frame && n != doc),
           store := s.store.filter (fun kv => kv.1 != frame && kv.1 != doc),
           idMap := s.idMap.filter (fun kv => kv.1 != frame && kv.1 != doc) }

/-- node.ts `removeObserver`: unbind listeners on the frame element; if
content window/document are tracked, unbind them too, disconnect the
content document's mutation watcher, and drop the frame and content
document from the tracking maps. -/
def removeObserver (root : Nat) (s : LState) : LState :=
  let s1 := { s with bound := s.bound.filter (fun t => t != root) }
  match look s1.iframes root with
  | none => s1
  | some dw =>
    let s2 := match dw.2 with
      | some w => { s1 with bound := s1.bound.filter (fun t => t != w) }
      | none => s1
    match dw.1 with
    | none => s2
    | some d =>
      let s3 := { s2 with bound := s2.bound.filter (fun t => t != d),
                          observedM := s2.observedM.filter (fun t => t != d) }
      removeIFrame root d s3

/-- node.ts `getCssRules`: access the rule list; on an access error log
a warning and, unless the error is a (possibly null) SecurityError,
re-throw it; with the rule list in hand concatenate the rule texts. -/
def getCssRules (sheet : Option Sheet) : List LogEntry × Except (Option String) String :=
  match sheet with
  | none => ([], .ok "")
  | some sh =>
    match sh.cssAccess with
    | .ok rules => ([], .ok (rules.foldl (fun a b => a ++ b) ""))
    | .error e =>
      ([{ code := .cssRules, severity := .warning, detail := e }],
       match e with
       | some nm => if nm ≠ "SecurityError" then .error (some nm) else .ok ""
       | none => .ok "")

/-- `style.textContent ? style.textContent.trim() : Empty`. -/
def trimmedText (style : HostNode) : String :=
  if style.textContent = "" then "" else jsTrim style.textContent

/-- node.ts `getStyleValue`: trimmed static text, unless it is empty or
the element has data-* attributes or a non-empty id, in which case the
live rule list is serialized instead. -/
def getStyleValue (style : HostNode) : List LogEntry × Except (Option String) String :=
  let value := trimmedText style
  if value.length = 0 ∨ style.dataset.length > 0 ∨ style.idAttr.length > 0 then
    getCssRules style.sheet
  else ([], .ok value)

def IGNORE_ATTRIBUTES : List String :=
  ["title", "alt", "onload", "onfocus", "onerror", "data-drupal-form-submit-last", "aria-label"]

/-- node.ts `getAttributes`: copy all attributes except the ignore list;
for INPUT elements synthesize a `value` entry from the live property
when no explicit attribute is present and the property is non-empty. -/
def getAttributes (element : HostNode) : List (String × String) :=
  let output := element.attrs.foldl
    (fun o kv => if kv.1 ∈ IGNORE_ATTRIBUTES then o else aset o kv.1 kv.2) []
  if element.tagName = "INPUT" ∧ (look output "value").isNone ∧ element.inputValue ≠ ""
  then aset output "value" element.inputValue
  else output

/-- Parent resolution with fallback:
`node.parentElement ? node.parentElement : node.parentNode ? node.parentNode : null`
(used by both the TEXT_NODE and the ELEMENT_NODE arms). -/
def parentOr (node : HostNode) : Option Nat :=
  match node.parentElement with
  | some p => some p
  | none => node.parentNode

/-- The tag of the resolved parent ("" when there is no parent node or
it exposes no tagName), as compared against STYLE/NOSCRIPT. -/
def parentTagOf (h : Host) (node : HostNode) : String :=
  match (parentOr node).bind h.nodes with
  | some p => p.tagName
  | none => ""

/-- The ELEMENT_NODE arm of node.ts's switch (per-tag dispatch). -/
def processElement (h : Host) (ref : Nat) (node : HostNode) (source : Source)
    (call : Call) (insideFrame : Bool) (s : LState) :
    LState × Except (Option String) (Option Nat) :=
  let attributes := getAttributes node
  let parent := parentOr node
  let tag := if node.svg then "svg:" ++ node.tagName else node.tagName
  if tag = "HTML" then
    let parent2 := if insideFrame ∧ parent ≠ none then parent.bind h.iframeOf else parent
    let pre := if insideFrame then "iframe:" else ""
    (domWrite call ref parent2 { tag := pre ++ tag, attributes := some attributes } source s,
     .ok none)
  else if tag = "SCRIPT" then
    if look attributes "type" = some "application/ld+json" then
      if node.jsonOk then ({ s with schemaCalls := s.schemaCalls + 1 }, .ok none)
      else (s, .ok none)
    else (s, .ok none)
  else if tag = "NOSCRIPT" then
    (domWrite call ref parent { tag := tag, attributes := some [], value := some "" } source s,
     .ok none)
  else if tag = "META" then
    let key := if (look attributes "property").isSome then some "property"
      else if (look attributes "name").isSome then some "name" else none
    (match key, look attributes "content" with
     | some k, some content =>
       (match look attributes k with
        | some "og:title" => ({ s with dims := s.dims ++ [(.metaTitle, content)] }, .ok none)
        | some "og:type" => ({ s with dims := s.dims ++ [(.metaType, content)] }, .ok none)
        | some "generator" => ({ s with dims := s.dims ++ [(.generator, content)] }, .ok none)
        | _ => (s, .ok none))
     | _, _ => (s, .ok none))
  else if tag = "HEAD" then
    let l := if insideFrame ∧ node.ownerLocation ≠ none then node.ownerLocation.getD {}
      else h.location
    let attrs2 := aset attributes "*B" (l.protocol ++ "//" ++ l.host ++ l.pathname)
    (domWrite call ref parent { tag := tag, attributes := some attrs2 } source s, .ok none)
  else if tag = "BASE" then
    (match node.parentElement with
     | some pe =>
       (match look s.store pe with
        | some rec =>
          let a := h.resolveUrl ((look attributes "href").getD "")
          let newAttrs := aset (rec.attributes.getD []) "*B"
            (a.protocol ++ "//" ++ a.host ++ a.pathname)
          ({ s with store := aset s.store pe { rec with attributes := some newAttrs } }, .ok none)
        | none => (s, .ok none))
     | none => (s, .ok none))
  else if tag = "STYLE" then
    let r := getStyleValue node
    let s1 := { s with logs := s.logs ++ r.1 }
    (match r.2 with
     | .error e => (s1, .error e)
     | .ok v =>
       (domWrite call ref parent { tag := tag, attributes := some attributes, value := some v }
          source s1, .ok none))
  else if tag = "IFRAME" then
    let so := h.sameorigin ref
    let s1 := if so then { s with monitored := s.monitored ++ [ref] } else s
    let frameAttrs := if so then aset attributes "*O" "true" else attributes
    let child := if so ∧ node.contentDocument ≠ none ∧ node.contentWindow ≠ none
        ∧ node.readyState ≠ "loading" then node.contentDocument else none
    let s2 := if source = .childListRemove then removeObserver ref s1 else s1
    (domWrite call ref parent { tag := tag, attributes := some frameAttrs } source s2, .ok child)
  else if tag = "LINK" then
    if h.electron ∧ look attributes "rel" = some "stylesheet" then
      (match h.linkSheet ref with
       | some sheet =>
         let r := getCssRules (some sheet)
         let s1 := { s with logs := s.logs ++ r.1 }
         (match r.2 with
          | .error e => (s1, .error e)
          | .ok v =>
            (domWrite call ref parent
               { tag := "STYLE", attributes := some attributes, value := some v } source s1,
             .ok none))
       | none => (s, .ok none))
    else
      (domWrite call ref parent { tag := tag, attributes := some attributes } source s, .ok none)
  else if tag = "VIDEO" ∨ tag = "AUDIO" ∨ tag = "SOURCE" then
    let attrs2 := match look attributes "src" with
      | some v => if v.startsWith "data:" then aset attributes "src" "" else attributes
      | none => attributes
    (domWrite call ref parent { tag := tag, attributes := some attrs2 } source s, .ok none)
  else
    (domWrite call ref parent { tag := tag, attributes := some attributes } source s,
     .ok node.shadowRoot)

/-- The switch on `node.nodeType` of node.ts's default function, after
the early-remove return and the style-text redirect were handled. -/
def processCore (h : Host) (ref : Nat) (node : HostNode) (source : Source) (ts : Nat)
    (s : LState) : LState × Except (Option String) (Option Nat) :=
  let call : Call := if ref ∈ s.tracked then .update else .add
  let insideFrame := ¬ node.ownerTop
  match node.ntype with
  | .doctypeNode =>
    let parent := if insideFrame ∧ node.parentNode ≠ none then node.parentNode.bind h.iframeOf
      else node.parentElement
    let pre := if insideFrame then "iframe:" else ""
    let docName := if node.dtName = "" then "HTML" else node.dtName
    let docAttrs := [("name", docName), ("publicId", node.publicId), ("systemId", node.systemId)]
    let data : NodeData := { tag := pre ++ "*D", attributes := some docAttrs }
    (domWrite call ref parent data source s, .ok none)
  | .documentNode =>
    let s1 := if ref = h.topDoc then { s with parses := s.parses ++ [ref] } else s
    let s2 := { s1 with styleChecks := s1.styleChecks ++ [(ref, ts)] }
    (observe ref s2, .ok none)
  | .fragmentNode =>
    (match node.hostRef with
     | none => (s, .ok none)
     | some hostEl =>
       let s1 := { s with parses := s.parses ++ [ref] }
       if node.nativeShadow then
         let s2 := observe ref s1
         let s3 := domWrite call ref (some hostEl)
           { tag := "*S", attributes := some [("style", "")] } source s2
         ({ s3 with styleChecks := s3.styleChecks ++ [(ref, ts)] }, .ok none)
       else
         let s2 := domWrite call ref (some hostEl)
           { tag := "*P", attributes := some [] } source s1
         ({ s2 with styleChecks := s2.styleChecks ++ [(ref, ts)] }, .ok none))
  | .textNode =>
    let parent := parentOr node
    let parentTag := parentTagOf h node
    let parentHas : Bool := match parent with
      | some p => decide (p ∈ s.tracked)
      | none => false
    if call = .update ∨ (parent ≠ none ∧ parentHas = true ∧ parentTag ≠ "STYLE" ∧ parentTag ≠ "NOSCRIPT")
    then (domWrite call ref parent { tag := "*T", value := node.nodeValue } source s, .ok none)
    else (s, .ok none)
  | .elementNode => processElement h ref node source call insideFrame s
  | .otherNode => (s, .ok none)

/-- Whether the node's parentElement is a STYLE element (the guard of
the style-text redirect). -/
def styleParentB (h : Host) (node : HostNode) : Bool :=
  match node.parentElement.bind h.nodes with
  | some pe => pe.tagName == "STYLE"
  | none => false

/-- node.ts's default function: the per-mutation incremental entry
point.  Returns the follow-up traversal target (a frame's content
document or a shadow root) when one is discovered. -/
def processNode (h : Host) (inputRef : Nat) (source : Source) (ts : Nat) (s : LState) :
    LState × Except (Option String) (Option Nat) :=
  match h.nodes inputRef with
  | none => (s, .ok none)
  | some n0 =>
    -- Do not track this change if removing a node before discovering it
    if source = .childListRemove ∧ inputRef ∉ s.tracked then (s, .ok none)
    else
      -- Special handling for text nodes that belong to style nodes:
      -- the processed node becomes node.parentNode
      if source ≠ .discover ∧ n0.ntype = .textNode ∧ styleParentB h n0 = true then
        match n0.parentNode with
        | none => (s, .error (some "TypeError"))
        | some pref =>
          (match h.nodes pref with
           | none => (s, .ok none)
           | some pn => processCore h pref pn source ts s)
      else processCore h inputRef n0 source ts s

end Layout

namespace Snap

/-- A UI event as consulted by snapshot.ts `target`: `composed` is the
event's composed flag, `hasComposedPath` whether the `composedPath`
method exists, `path` its result, and `target` the event target. -/
structure UIEvt where
  composed : Bool := false
  hasComposedPath : Bool := false
  path : List Nat := []
  target : Nat
deriving DecidableEq, Repr

/-- The node typing the `target` function can observe: each node's
`nodeType` and, for documents, the `documentElement` (null for an empty
document). -/
structure SnapHost where
  ntypeOf : Nat → NType
  documentElementOf : Nat → Option Nat := fun _ => none

/-- snapshot.ts `target(evt)`:
`path = evt.composed && evt.composedPath ? evt.composedPath() : null`;
`node = path && path.length > 0 ? path[0] : evt.target`; documents are
replaced by their documentElement. -/
def targetOf (h : SnapHost) (evt : UIEvt) : Option Nat :=
  let p : Option (List Nat) :=
    if evt.composed ∧ evt.hasComposedPath then some evt.path else none
  let node := match p with
    | some l => if 0 < l.length then l.headD evt.target else evt.target
    | none => evt.target
  if h.ntypeOf node = .doc then h.documentElementOf node else some node

end Snap

/-! Generic association-list and Mirror Writer lemmas. -/

theorem look_append {α β : Type} [DecidableEq α] (a b : List (α × β)) (k : α) :
    look (a ++ b) k = match look a k with
      | some v => some v
      | none => look b k := by
  induction a with
  | nil => simp [look]
  | cons kv r ih =>
    by_cases hk : kv.1 = k
    · simp [look, hk]
    · simpa [look, hk] using ih

theorem aset_of_look_none {α β : Type} [DecidableEq α] (l : List (α × β)) (k : α) (v : β)
    (h : look l k = none) : aset l k v = l ++ [(k, v)] := by
  induction l with
  | nil => simp [aset]
  | cons kv r ih =>
    by_cases hk : kv.1 = k
    · simp [look, hk] at h
    · simp [look, hk] at h
      simp [aset, hk, ih h]

theorem look_filter_none {β : Type} (p : Nat × β → Bool) (l : List (Nat × β)) (k : Nat)
    (hp : ∀ v, p (k, v) = false) : look (l.filter p) k = none := by
  induction l with
  | nil => simp [look]
  | cons kv r ih =>
    by_cases hpk : p kv = true
    · rw [List.filter_cons_of_pos hpk]
      by_cases hk : kv.1 = k
      · exfalso
        have h2 : p (kv.1, kv.2) = false := by rw [hk]; exact hp kv.2
        have h3 : p kv = false := h2
        rw [hpk] at h3
        simp at h3
      · simpa [look, hk] using ih
    · rw [List.filter_cons_of_neg (by simpa using hpk)]
      exact ih

/-- Folding JS object assignments over attributes with distinct names,
skipping an ignore list, appends exactly the kept attributes in order. -/
theorem foldAset_ignore (ign : List String) (l : List (String × String)) :
    ∀ acc : List (String × String), (l.map Prod.fst).Nodup →
      (∀ kv ∈ l, look acc kv.1 = none) →
      l.foldl (fun o kv => if kv.1 ∈ ign then o else aset o kv.1 kv.2) acc
        = acc ++ l.filter (fun kv => decide (kv.1 ∉ ign)) := by
  induction l with
  | nil => intro acc _ _; simp
  | cons kv l ih =>
    intro acc hnd hdisj
    simp only [List.foldl_cons]
    have hnd2 : (l.map Prod.fst).Nodup := by
      simp only [List.map_cons, List.nodup_cons] at hnd
      exact hnd.2
    have hhd : kv.1 ∉ l.map Prod.fst := by
      simp only [List.map_cons, List.nodup_cons] at hnd
      exact hnd.1
    by_cases hig : kv.1 ∈ ign
    · rw [if_pos hig, ih acc hnd2 (fun kv2 h2 => hdisj kv2 (List.mem_cons_of_mem kv h2))]
      rw [List.filter_cons_of_neg (by simpa using hig)]
    · rw [if_neg hig]
      have hacc : look acc kv.1 = none := hdisj kv (List.mem_cons_self kv l)
      rw [aset_of_look_none acc kv.1 kv.2 hacc]
      have hdisj2 : ∀ kv2 ∈ l, look (acc ++ [(kv.1, kv.2)]) kv2.1 = none := by
        intro kv2 h2
        rw [look_append]
        have h3 : look acc kv2.1 = none := hdisj kv2 (List.mem_cons_of_mem kv h2)
        have h4 : kv.1 ≠ kv2.1 := by
          intro hk
          exact hhd (hk ▸ List.mem_map_of_mem Prod.fst h2)
        simp [h3, look, h4]
      rw [ih (acc ++ [(kv.1, kv.2)]) hnd2 hdisj2]
      rw [List.filter_cons_of_pos (by simpa using hig)]
      simp

/-- Folding plain JS object assignments over attributes with distinct
names appends all of them in order. -/
theorem foldAset_plain (l : List (String × String)) :
    ∀ acc : List (String × String), (l.map Prod.fst).Nodup →
      (∀ kv ∈ l, look acc kv.1 = none) →
      l.foldl (fun o kv => aset o kv.1 kv.2) acc = acc ++ l := by
  induction l with
  | nil => intro acc _ _; simp
  | cons kv l ih =>
    intro acc hnd hdisj
    simp only [List.foldl_cons]
    have hnd2 : (l.map Prod.fst).Nodup := by
      simp only [List.map_cons, List.nodup_cons] at hnd
      exact hnd.2
    have hhd : kv.1 ∉ l.map Prod.fst := by
      simp only [List.map_cons, List.nodup_cons] at hnd
      exact hnd.1
    have hacc : look acc kv.1 = none := hdisj kv (List.mem_cons_self kv l)
    rw [aset_of_look_none acc kv.1 kv.2 hacc]
    have hdisj2 : ∀ kv2 ∈ l, look (acc ++ [(kv.1, kv.2)]) kv2.1 = none := by
      intro kv2 h2
      rw [look_append]
      have h3 : look acc kv2.1 = none := hdisj kv2 (List.mem_cons_of_mem kv h2)
      have h4 : kv.1 ≠ kv2.1 := by
        intro hk
        exact hhd (hk ▸ List.mem_map_of_mem Prod.fst h2)
      simp [h3, look, h4]
    rw [ih (acc ++ [(kv.1, kv.2)]) hnd2 hdisj2]
    simp

namespace Layout

theorem allocId_emits (n : Nat) (s : LState) : (allocId n s).2.emits = s.emits := by
  unfold allocId
  cases look s.idMap n <;> simp

/-- The Mirror Writer appends exactly one emission for a non-empty
tag. -/
theorem domWrite_emits (c : Call) (n : Nat) (p : Option Nat) (d : NodeData)
    (src : Source) (s : LState) (h : d.tag ≠ "") :
    (domWrite c n p d src s).emits
      = s.emits ++ [{ call := c, node := n, parent := p, data := d, source := src }] := by
  unfold domWrite
  simp [h, allocId_emits]

/-- The Mirror Writer drops empty-tag data silently. -/
theorem domWrite_empty (c : Call) (n : Nat) (p : Option Nat) (d : NodeData)
    (src : Source) (s : LState) (h : d.tag = "") :
    domWrite c n p d src s = s := by
  unfold domWrite
  simp [h]

end Layout

/-! Concrete documents used to exercise the snapshot traversal. -/

/-- Text node "hello" (ref 2). -/
def textHello : Snap.DomTree := .node { ref := 2, ntype := .text, nodeValue := some "hello" } []

/-- A DIV element (ref 1) with the text child. -/
def divTree : Snap.DomTree := .node { ref := 1, ntype := .element, tagName := "DIV" } [textHello]

/-- A document (ref 0) containing one DIV with one text child "hello". -/
def demoDoc : Snap.DomTree := .node { ref := 0, ntype := .doc } [divTree]

/-- A document fragment consisting of a single DIV element (ref 1). -/
def divOnly : Snap.DomTree := .node { ref := 1, ntype := .element, tagName := "DIV" } []

theorem demoDoc_run1 :
    Snap.snapshot demoDoc {} =
      ⟨[(2, 2), (1, 1)], 3,
       [⟨1, none, none, "DIV", some [], none⟩,
        ⟨2, some 1, none, "*T", none, some "hello"⟩]⟩ := by
  simp [Snap.snapshot, Snap.traverse, Snap.traverseAux_cons, Snap.traverseAux_nil,
    Snap.processSnap, Snap.classify, Snap.addSnap, Snap.getId, Snap.entryChildren,
    Snap.chainEntries, Snap.rootEntry, Snap.dataOf, Snap.kidsOf, Clarity.look,
    Snap.truthyId, Snap.snapGetAttributes, Clarity.aset, demoDoc, divTree, textHello]

theorem demoDoc_run2 :
    Snap.snapshot demoDoc
      (⟨[(2, 2), (1, 1)], 3,
        [⟨1, none, none, "DIV", some [], none⟩,
         ⟨2, some 1, none, "*T", none, some "hello"⟩]⟩ : Snap.State) =
      ⟨[(2, 2), (1, 1)], 3,
       [⟨1, none, none, "DIV", some [], none⟩,
        ⟨2, some 1, none, "*T", none, some "hello"⟩]⟩ := by
  simp [Snap.snapshot, Snap.traverse, Snap.traverseAux_cons, Snap.traverseAux_nil,
    Snap.processSnap, Snap.classify, Snap.addSnap, Snap.getId, Snap.entryChildren,
    Snap.chainEntries, Snap.rootEntry, Snap.dataOf, Snap.kidsOf, Clarity.look,
    Snap.truthyId, Snap.snapGetAttributes, Clarity.aset, demoDoc, divTree, textHello]

theorem divOnly_run :
    Snap.snapshot divOnly (⟨[(1, 9)], 10, []⟩ : Snap.State) =
      ⟨[(1, 9)], 10, [⟨9, none, none, "DIV", some [], none⟩]⟩ := by
  simp [Snap.snapshot, Snap.traverse, Snap.traverseAux_cons, Snap.traverseAux_nil,
    Snap.processSnap, Snap.classify, Snap.addSnap, Snap.getId, Snap.entryChildren,
    Snap.chainEntries, Snap.rootEntry, Snap.dataOf, Snap.kidsOf, Clarity.look,
    Snap.truthyId, Snap.snapGetAttributes, Clarity.aset, divOnly]

/-- Claim C1: identifier allocation is idempotent and monotonic.  The module
starts allocating at 1; the first `getId` call for a node hands out the
current `index` and increments it by 1; a later call for the same node
returns the same id and leaves the state unchanged; and no existing
node-to-id binding is ever changed by a `getId` call, so no identifier
is ever reassigned to a different node within a session. -/
theorem claim1_identity_registry :
    (({} : Snap.State).index = 1)
    ∧ (∀ n s, look s.idMap n = none →
        Snap.getId n s = (s.index, { s with idMap := (n, s.index) :: s.idMap, index := s.index + 1 }))
    ∧ (∀ n s i s1, Snap.getId n s = (i, s1) → Snap.getId n s1 = (i, s1))
    ∧ (∀ n m i s, look s.idMap m = some i → look (Snap.getId n s).2.idMap m = some i) := by
  refine ⟨rfl, ?alloc, ?idem, ?pres⟩
  case alloc =>
    intro n s h
    unfold Snap.getId
    rw [h]
  case idem =>
    intro n s i s1 h
    unfold Snap.getId at h ⊢
    cases hn : look s.idMap n with
    | some j =>
      rw [hn] at h
      simp only [Prod.mk.injEq] at h
      obtain ⟨rfl, rfl⟩ := h
      simp [hn]
    | none =>
      rw [hn] at h
      simp only [Prod.mk.injEq] at h
      obtain ⟨rfl, rfl⟩ := h
      simp [look]
  case pres =>
    intro n m i s h
    exact Snap.getId_preserves n m i s h

/-- Claim C1 witness: on concrete states, a fresh node receives the next
index (1 on the initial state), a repeated call is a no-op returning the
same id, and an unrelated allocation preserves an existing binding. -/
theorem claim1_identity_registry_witness :
    Snap.getId 5 ({} : Snap.State) = (1, (⟨[(5, 1)], 2, []⟩ : Snap.State))
    ∧ Snap.getId 5 (⟨[(5, 1)], 2, []⟩ : Snap.State) = (1, (⟨[(5, 1)], 2, []⟩ : Snap.State))
    ∧ look (Snap.getId 9 (⟨[(5, 1)], 2, []⟩ : Snap.State)).2.idMap 5 = some 1 := by
  refine ⟨?_, ?_, ?_⟩
  · exact claim1_identity_registry.2.1 5 {} (by decide)
  · exact claim1_identity_registry.2.2.1 5 ⟨[(5, 1)], 2, []⟩ 1 ⟨[(5, 1)], 2, []⟩ (by decide)
  · exact claim1_identity_registry.2.2.2 9 5 1 ⟨[(5, 1)], 2, []⟩ (by decide)

/-- Claim C2 counterexample: `snapshot` does not reset the identity registry.
Starting from a state whose registry already binds node 1 to id 9 (with
`index` 10), a snapshot run leaves that binding in place and emits the
record for node 1 with the stale id 9 — under the claim the run would
have started from an empty registry and could never produce id 9. -/
theorem claim2_counterexample :
    Snap.snapshot divOnly (⟨[(1, 9)], 10, []⟩ : Snap.State) =
      ⟨[(1, 9)], 10, [⟨9, none, none, "DIV", some [], none⟩]⟩
    ∧ ([(1, 9)] : List (Nat × Nat)) ≠ [] := by
  exact ⟨divOnly_run, by decide⟩

/-- Claim C2 (amended): the snapshot traversal is a breadth-first walk from
the top document that commits every node through the simplified add
path — each processed node only appends (never rewrites) records, and an
already-registered node still gets a freshly appended record reusing its
id, with no update branch — and it resets the pending output buffer
(`values`) before running, while the identity registry persists across
snapshot runs (it is only reset at session start/stop). -/
theorem claim2_snapshot_breadth_first :
    (∀ root s, Snap.snapshot root s
        = Snap.applyEntries (Snap.levelOrder [Snap.rootEntry root]) { s with values := [] })
    ∧ (∀ e s, (Snap.processSnap e s).values = s.values ++ Snap.emitOf e s)
    ∧ (∀ e s i tg,
        look s.idMap (Snap.dataOf e.t).ref = some i →
        (Snap.classify (Snap.dataOf e.t) e.parent s).1 = some tg → tg ≠ "" →
        Snap.emitOf e s
          = [{ id := i, parent := Snap.lookOpt s e.parent,
               previous := Snap.lookOpt s e.prev, tag := tg,
               attributes := (Snap.classify (Snap.dataOf e.t) e.parent s).2.1,
               value := (Snap.classify (Snap.dataOf e.t) e.parent s).2.2 }])
    ∧ (∀ root s m i, look s.idMap m = some i →
        look (Snap.snapshot root s).idMap m = some i) :=
  ⟨fun root s => Snap.snapshot_eq_levelOrder root s,
   fun e s => Snap.processSnap_values_eq e s,
   fun e s i tg hi hc htg => Snap.emitOf_known e s i tg hi hc htg,
   fun root s m i h => Snap.snapshot_preserves root s m i h⟩

/-- Claim C2 witness: on the concrete one-element document and a pre-seeded
registry, the re-sighted node appends a record reusing id 9, and the
stale binding survives the snapshot run. -/
theorem claim2_snapshot_breadth_first_witness :
    Snap.emitOf ⟨divOnly, none, none⟩ (⟨[(1, 9)], 10, []⟩ : Snap.State)
      = [⟨9, none, none, "DIV", some [], none⟩]
    ∧ look (Snap.snapshot divOnly (⟨[(1, 9)], 10, []⟩ : Snap.State)).idMap 1 = some 9 := by
  constructor
  · have h := claim2_snapshot_breadth_first.2.2.1 ⟨divOnly, none, none⟩
      (⟨[(1, 9)], 10, []⟩ : Snap.State) 9 "DIV" (by decide) (by decide) (by decide)
    simpa [Snap.classify, Snap.dataOf, Snap.lookOpt, Clarity.look,
      Snap.snapGetAttributes, Clarity.aset, divOnly] using h
  · exact claim2_snapshot_breadth_first.2.2.2 divOnly ⟨[(1, 9)], 10, []⟩ 1 9 (by decide)

/-- Claim C3 counterexample: in the snapshot of a document with one DIV and
one text child, the DIV record's parent is null, not "the root's id" —
the document root is never entered into the registry by the traversal
(its record is dropped for lack of a tag and ids are only assigned on
commit), so no record can carry a root id. -/
theorem claim3_counterexample :
    (Snap.snapshot demoDoc {}).values.map Snap.Record.parent = [none, some 1]
    ∧ look (Snap.snapshot demoDoc {}).idMap 0 = none := by
  rw [demoDoc_run1]
  exact ⟨by decide, by decide⟩

/-- Claim C3 (amended): a full snapshot traversal of a document containing one
DIV with one text child "hello" yields exactly two records — the DIV
with parent null (the document root never receives an identifier on this
path), and the text node with parent equal to the DIV's id and value
"hello" — and running the traversal twice from a reset state assigns
identical identifiers (indeed identical records) both times. -/
theorem claim3_two_records :
    (Snap.snapshot demoDoc {}).values
      = [⟨1, none, none, "DIV", some [], none⟩,
         ⟨2, some 1, none, "*T", none, some "hello"⟩]
    ∧ Snap.snapshot demoDoc (Snap.snapshot demoDoc {}) = Snap.snapshot demoDoc {} := by
  constructor
  · rw [demoDoc_run1]
  · rw [demoDoc_run1, demoDoc_run2]

/-- Claim C5: for every style element, the style extractor returns the
trimmed static text content, except that when the trimmed text is
empty, or the element has at least one custom data-* attribute, or the
element's id attribute is non-empty, it instead returns the
concatenation of the serialized texts of the element's live CSS rule
list. -/
theorem claim5_style_extractor :
    (∀ style : Layout.HostNode,
      Layout.trimmedText style ≠ "" → style.dataset = [] → style.idAttr = "" →
      Layout.getStyleValue style = ([], .ok (Layout.trimmedText style)))
    ∧ (∀ (style : Layout.HostNode) (sh : Layout.Sheet) (rules : List String),
      (Layout.trimmedText style = "" ∨ style.dataset ≠ [] ∨ style.idAttr ≠ "") →
      style.sheet = some sh → sh.cssAccess = .ok rules →
      Layout.getStyleValue style = ([], .ok (rules.foldl (fun a b => a ++ b) ""))) := by
  constructor
  · intro style hv hd hid
    unfold Layout.getStyleValue
    have h1 : ¬((Layout.trimmedText style).length = 0 ∨ style.dataset.length > 0
        ∨ style.idAttr.length > 0) := by
      push_neg
      refine ⟨?_, ?_, ?_⟩
      · intro h0
        exact hv ((string_len_zero (Layout.trimmedText style)).mp h0)
      · simp [hd]
      · have := (string_len_zero style.idAttr).mpr hid
        omega
    rw [if_neg h1]
  · intro style sh rules hcond hsheet hacc
    unfold Layout.getStyleValue
    have h1 : (Layout.trimmedText style).length = 0 ∨ style.dataset.length > 0
        ∨ style.idAttr.length > 0 := by
      rcases hcond with h | h | h
      · exact Or.inl ((string_len_zero (Layout.trimmedText style)).mpr h)
      · exact Or.inr (Or.inl (by simpa [List.length_pos] using h))
      · refine Or.inr (Or.inr ?_)
        have h2 : style.idAttr.length ≠ 0 := fun h0 => h ((string_len_zero style.idAttr).mp h0)
        omega
    rw [if_pos h1, hsheet]
    simp [Layout.getCssRules, hacc]

/-- Claim C5 witness: a style element with non-empty trimmed text, no
data-* attributes and empty id resolves to its trimmed static text; a
style element with a non-empty id and non-empty (stale) static text
resolves to the serialized live rules instead. -/
theorem claim5_style_extractor_witness :
    Layout.getStyleValue { ntype := .elementNode, tagName := "STYLE", textContent := " body " }
      = ([], .ok "body")
    ∧ Layout.getStyleValue
        { ntype := .elementNode, tagName := "STYLE", textContent := "stale", idAttr := "s1",
          sheet := some { cssAccess := .ok ["r1", "r2"] } }
      = ([], .ok "r1r2") := by
  constructor
  · have h := claim5_style_extractor.1
      { ntype := .elementNode, tagName := "STYLE", textContent := " body " }
      (by decide) (by decide) (by decide)
    simpa [Layout.trimmedText] using h
  · have h := claim5_style_extractor.2
      { ntype := .elementNode, tagName := "STYLE", textContent := "stale", idAttr := "s1",
        sheet := some { cssAccess := .ok ["r1", "r2"] } }
      { cssAccess := .ok ["r1", "r2"] } ["r1", "r2"]
      (by decide) (by decide) (by decide)
    simpa using h

/-- Claim C6: when accessing a stylesheet's rule list raises a
cross-origin SecurityError, the error is caught, logged as a warning,
and the result is empty content; when it raises any other named error,
that error is logged and re-thrown to the caller; and when parsing a
SCRIPT element's JSON-LD text fails, the failure is silently swallowed —
the entry point returns normally with the state unchanged (no record,
no schema call). -/
theorem claim6_error_policy :
    (∀ sh : Layout.Sheet, sh.cssAccess = .error (some "SecurityError") →
      Layout.getCssRules (some sh)
        = ([{ code := .cssRules, severity := .warning, detail := some "SecurityError" }], .ok ""))
    ∧ (∀ (sh : Layout.Sheet) (nm : String),
      sh.cssAccess = .error (some nm) → nm ≠ "SecurityError" →
      Layout.getCssRules (some sh)
        = ([{ code := .cssRules, severity := .warning, detail := some nm }], .error (some nm)))
    ∧ (∀ (h : Layout.Host) (i : Nat) (n : Layout.HostNode) (source : Layout.Source)
        (ts : Nat) (s : Layout.LState),
      h.nodes i = some n → n.ntype = .elementNode → n.tagName = "SCRIPT" → n.svg = false →
      look (Layout.getAttributes n) "type" = some "application/ld+json" → n.jsonOk = false →
      ¬(source = .childListRemove ∧ i ∉ s.tracked) →
      Layout.processNode h i source ts s = (s, .ok none)) := by
  refine ⟨?sec, ?other, ?script⟩
  case sec =>
    intro sh hacc
    simp [Layout.getCssRules, hacc]
  case other =>
    intro sh nm hacc hnm
    simp [Layout.getCssRules, hacc, hnm]
  case script =>
    intro h i n source ts s hn hnt htag hsvg hlook hjson hguard
    unfold Layout.processNode
    rw [hn]
    simp only [hguard, if_false, ite_false, if_neg hguard]
    have hred : ¬(source ≠ Layout.Source.discover ∧ n.ntype = Layout.LNType.textNode
        ∧ Layout.styleParentB h n = true) := by
      rintro ⟨_, h2, _⟩
      rw [hnt] at h2
      exact absurd h2 (by decide)
    rw [if_neg hred]
    unfold Layout.processCore
    rw [hnt]
    unfold Layout.processElement
    simp [hsvg, htag, hlook, hjson]

/-- Claim C6 witness: a concrete cross-origin sheet is logged and
yields empty content; a concrete TypeError-raising sheet is re-thrown;
a concrete JSON-LD script whose text fails to parse is processed
without effect and without raising. -/
theorem claim6_error_policy_witness :
    Layout.getCssRules (some { cssAccess := .error (some "SecurityError") })
      = ([{ code := .cssRules, severity := .warning, detail := some "SecurityError" }], .ok "")
    ∧ Layout.getCssRules (some { cssAccess := .error (some "TypeError") })
      = ([{ code := .cssRules, severity := .warning, detail := some "TypeError" }],
         .error (some "TypeError"))
    ∧ Layout.processNode
        { nodes := fun r => if r = 4 then
            some { ntype := .elementNode, tagName := "SCRIPT",
                   attrs := [("type", "application/ld+json")], jsonOk := false }
          else none }
        4 .discover 0 {}
      = ({}, .ok none) := by
  refine ⟨?_, ?_, ?_⟩
  · exact claim6_error_policy.1 { cssAccess := .error (some "SecurityError") } (by decide)
  · exact claim6_error_policy.2.1 { cssAccess := .error (some "TypeError") } "TypeError"
      (by decide) (by decide)
  · exact claim6_error_policy.2.2
      { nodes := fun r => if r = 4 then
          some { ntype := .elementNode, tagName := "SCRIPT",
                 attrs := [("type", "application/ld+json")], jsonOk := false }
        else none }
      4 { ntype := .elementNode, tagName := "SCRIPT",
          attrs := [("type", "application/ld+json")], jsonOk := false }
      .discover 0 {} (by decide) (by decide) (by decide) (by decide) (by decide) (by decide)
      (by decide)

/-- Claim C8 counterexample: the snapshot path's attribute extraction
applies no deny-list — an element carrying the deny-listed attribute
`title` has it copied verbatim into the snapshot record's attribute
map, contradicting the claim that extraction for a tracked node always
excludes the deny-list. -/
theorem claim8_counterexample :
    Snap.snapGetAttributes [("title", "x")] = [("title", "x")]
    ∧ "title" ∈ Layout.IGNORE_ATTRIBUTES := by
  constructor
  · rfl
  · decide

/-- Claim C8 (amended): the incremental path's attribute extraction
(node.ts) copies every attribute except those on the fixed deny-list
(title, alt, onload, onfocus, onerror, data-drupal-form-submit-last,
aria-label) and, for an INPUT element with no surviving explicit value
attribute and a non-empty live value property, appends a synthesized
value entry; the snapshot path's extraction (snapshot.ts) copies every
attribute verbatim, with no deny-list and no INPUT synthesis. -/
theorem claim8_attribute_extraction :
    (∀ e : Layout.HostNode, (e.attrs.map Prod.fst).Nodup →
      Layout.getAttributes e
        = (if e.tagName = "INPUT"
              ∧ look (e.attrs.filter (fun kv => decide (kv.1 ∉ Layout.IGNORE_ATTRIBUTES)))
                  "value" = none
              ∧ e.inputValue ≠ ""
           then e.attrs.filter (fun kv => decide (kv.1 ∉ Layout.IGNORE_ATTRIBUTES))
                  ++ [("value", e.inputValue)]
           else e.attrs.filter (fun kv => decide (kv.1 ∉ Layout.IGNORE_ATTRIBUTES))))
    ∧ (∀ attrs : List (String × String), (attrs.map Prod.fst).Nodup →
      Snap.snapGetAttributes attrs = attrs) := by
  constructor
  · intro e hnd
    unfold Layout.getAttributes
    have hfold := foldAset_ignore Layout.IGNORE_ATTRIBUTES e.attrs [] hnd
      (fun kv _ => by simp [look])
    simp only [List.nil_append] at hfold
    rw [hfold]
    by_cases hc : e.tagName = "INPUT"
        ∧ look (e.attrs.filter (fun kv => decide (kv.1 ∉ Layout.IGNORE_ATTRIBUTES))) "value" = none
        ∧ e.inputValue ≠ ""
    · rw [if_pos ⟨hc.1, by simpa using hc.2.1, hc.2.2⟩, if_pos hc]
      exact aset_of_look_none _ _ _ hc.2.1
    · rw [if_neg hc, if_neg ?hneg]
      case hneg =>
        intro ⟨h1, h2, h3⟩
        exact hc ⟨h1, by simpa using h2, h3⟩
  · intro attrs hnd
    unfold Snap.snapGetAttributes
    have hfold := foldAset_plain attrs [] hnd (fun kv _ => by simp [look])
    simpa using hfold

/-- Claim C8 witness: on a concrete INPUT element with a deny-listed
`title` attribute and a typed live value, the incremental extractor
drops `title` and appends the synthesized value; the snapshot extractor
keeps the attribute list verbatim. -/
theorem claim8_attribute_extraction_witness :
    Layout.getAttributes
      { ntype := .elementNode, tagName := "INPUT",
        attrs := [("title", "x"), ("href", "h")], inputValue := "typed" }
      = [("href", "h"), ("value", "typed")]
    ∧ Snap.snapGetAttributes [("a", "1"), ("title", "t")] = [("a", "1"), ("title", "t")] := by
  constructor
  · have h := claim8_attribute_extraction.1
      { ntype := .elementNode, tagName := "INPUT",
        attrs := [("title", "x"), ("href", "h")], inputValue := "typed" }
      (by decide)
    rw [h]
    rfl
  · exact claim8_attribute_extraction.2 [("a", "1"), ("title", "t")] (by decide)

/-- Claim C9: for every (non-SVG) META element whose extracted
attributes carry property="og:title" and content=X, processing emits no
mirrored node record and makes exactly one dimension log call with
value X: the entire resulting state is the input state with exactly
(MetaTitle, X) appended to the dimension log. -/
theorem claim9_meta_dimension :
    ∀ (h : Layout.Host) (i : Nat) (n : Layout.HostNode) (source : Layout.Source)
      (ts : Nat) (s : Layout.LState) (x : String),
      h.nodes i = some n → n.ntype = .elementNode → n.tagName = "META" → n.svg = false →
      look (Layout.getAttributes n) "property" = some "og:title" →
      look (Layout.getAttributes n) "content" = some x →
      ¬(source = .childListRemove ∧ i ∉ s.tracked) →
      Layout.processNode h i source ts s
        = ({ s with dims := s.dims ++ [(.metaTitle, x)] }, .ok none) := by
  intro h i n source ts s x hn hnt htag hsvg hprop hcontent hguard
  have hred : ¬(source ≠ Layout.Source.discover ∧ n.ntype = Layout.LNType.textNode
      ∧ Layout.styleParentB h n = true) := by
    rintro ⟨_, h2, _⟩
    rw [hnt] at h2
    exact absurd h2 (by decide)
  unfold Layout.processNode
  rw [hn]
  simp only [if_neg hguard, if_neg hred]
  unfold Layout.processCore
  simp [hnt, Layout.processElement, hsvg, htag, hprop, hcontent]

/-- Claim C9 witness: a concrete og:title META tag adds exactly one
MetaTitle dimension entry and nothing else. -/
theorem claim9_meta_dimension_witness :
    Layout.processNode
      { nodes := fun r => if r = 3 then
          some { ntype := .elementNode, tagName := "META",
                 attrs := [("property", "og:title"), ("content", "X")] }
        else none }
      3 .discover 0 {}
      = ({ dims := [(.metaTitle, "X")] }, .ok none) := by
  have h := claim9_meta_dimension
    { nodes := fun r => if r = 3 then
        some { ntype := .elementNode, tagName := "META",
               attrs := [("property", "og:title"), ("content", "X")] }
      else none }
    3 { ntype := .elementNode, tagName := "META",
        attrs := [("property", "og:title"), ("content", "X")] }
    .discover 0 {} "X" (by decide) (by decide) (by decide) (by decide) (by decide) (by decide)
    (by decide)
  simpa using h

theorem append_one_ne {α : Type} (l : List α) (x : α) : l ++ [x] ≠ l := by
  intro h
  have h2 := congrArg List.length h
  simp at h2

theorem removeObserver_index (f : Nat) (s : Layout.LState) :
    (Layout.removeObserver f s).index = s.index := by
  unfold Layout.removeObserver
  cases hl : look s.iframes f with
  | none => simp [hl]
  | some dw =>
    cases dw with
    | mk dOpt wOpt => cases dOpt <;> cases wOpt <;> simp [hl, Layout.removeIFrame]

/-- Claim C4: a text node is first-sight mirrored exactly when its
element-or-node parent is already mirrored and is neither STYLE nor
NOSCRIPT; a removal notification for a never-discovered node returns
without raising, without any record, and without touching the state;
and removal of previously-mirrored text still flows through as an
update record even with both parent links severed. -/
theorem claim4_text_node_rules :
    (∀ (h : Layout.Host) (i : Nat) (n : Layout.HostNode) (source : Layout.Source)
       (ts : Nat) (s : Layout.LState),
      h.nodes i = some n → n.ntype = .textNode → i ∉ s.tracked →
      source ≠ .childListRemove →
      ¬(source ≠ .discover ∧ Layout.styleParentB h n = true) →
      ((Layout.processNode h i source ts s).1.emits ≠ s.emits
        ↔ ∃ p, Layout.parentOr n = some p ∧ p ∈ s.tracked
            ∧ Layout.parentTagOf h n ≠ "STYLE" ∧ Layout.parentTagOf h n ≠ "NOSCRIPT"))
    ∧ (∀ (h : Layout.Host) (i : Nat) (ts : Nat) (s : Layout.LState),
      i ∉ s.tracked →
      Layout.processNode h i .childListRemove ts s = (s, .ok none))
    ∧ (∀ (h : Layout.Host) (i : Nat) (n : Layout.HostNode) (ts : Nat) (s : Layout.LState),
      h.nodes i = some n → n.ntype = .textNode → i ∈ s.tracked →
      n.parentElement = none → n.parentNode = none →
      (Layout.processNode h i .childListRemove ts s).1.emits
        = s.emits ++ [{ call := .update, node := i, parent := none,
                        data := { tag := "*T", value := n.nodeValue },
                        source := .childListRemove }]
      ∧ (Layout.processNode h i .childListRemove ts s).2 = .ok none) := by
  refine ⟨?first, ?undisc, ?sever⟩
  case first =>
    intro h i n source ts s hn hnt hnotr hsrc hnostyle
    have hguard : ¬(source = Layout.Source.childListRemove ∧ i ∉ s.tracked) :=
      fun h2 => hsrc h2.1
    have hred : ¬(source ≠ Layout.Source.discover ∧ n.ntype = Layout.LNType.textNode
        ∧ Layout.styleParentB h n = true) := fun h2 => hnostyle ⟨h2.1, h2.2.2⟩
    unfold Layout.processNode
    rw [hn]
    simp only [if_neg hguard, if_neg hred]
    unfold Layout.processCore
    simp only [hnt, if_neg hnotr]
    rcases hp : Layout.parentOr n with _ | p
    · simp [hp]
    · by_cases hmem : p ∈ s.tracked
      · by_cases ht : Layout.parentTagOf h n ≠ "STYLE" ∧ Layout.parentTagOf h n ≠ "NOSCRIPT"
        · rw [if_pos (Or.inr ⟨by simp, by simp [hmem], ht.1, ht.2⟩)]
          have hw := Layout.domWrite_emits Layout.Call.add i (some p)
            { tag := "*T", attributes := none, value := n.nodeValue } source s (by simp)
          constructor
          · intro _
            exact ⟨p, rfl, hmem, ht.1, ht.2⟩
          · intro _
            show (Layout.domWrite Layout.Call.add i (some p)
              { tag := "*T", attributes := none, value := n.nodeValue } source s).emits ≠ s.emits
            rw [hw]
            exact append_one_ne s.emits _
        · rw [if_neg ?hcnd]
          case hcnd =>
            rintro (h2 | ⟨_, _, h4, h5⟩)
            · exact absurd h2 (by decide)
            · exact ht ⟨h4, h5⟩
          simp only [ne_eq, not_true_eq_false, false_iff, not_exists]
          rintro q ⟨hq, _, h4, h5⟩
          exact ht ⟨h4, h5⟩
      · rw [if_neg ?hcnd2]
        case hcnd2 =>
          rintro (h2 | ⟨_, h3, _⟩)
          · exact absurd h2 (by decide)
          · simp at h3
            exact hmem h3
        simp only [ne_eq, not_true_eq_false, false_iff, not_exists]
        rintro q ⟨hq, hqm, _⟩
        cases hq
        exact hmem hqm
  case undisc =>
    intro h i ts s hnot
    unfold Layout.processNode
    cases hn : h.nodes i with
    | none => rfl
    | some n0 => simp [hnot]
  case sever =>
    intro h i n ts s hn hnt htr hpe hpn
    have hspb : Layout.styleParentB h n = false := by
      unfold Layout.styleParentB
      rw [hpe]
      rfl
    have hpar : Layout.parentOr n = none := by
      unfold Layout.parentOr
      rw [hpe, hpn]
    suffices hgen : ∀ source : Layout.Source,
        (Layout.processNode h i source ts s).1.emits
          = s.emits ++ [{ call := .update, node := i, parent := none,
                          data := { tag := "*T", value := n.nodeValue }, source := source }]
        ∧ (Layout.processNode h i source ts s).2 = .ok none by
      exact ⟨(hgen .childListRemove).1, (hgen .childListRemove).2⟩
    intro source
    have hguard : ¬(source = Layout.Source.childListRemove ∧ i ∉ s.tracked) :=
      fun h2 => h2.2 htr
    have hred : ¬(source ≠ Layout.Source.discover
        ∧ n.ntype = Layout.LNType.textNode ∧ Layout.styleParentB h n = true) := by
      rintro ⟨_, _, h3⟩
      rw [hspb] at h3
      exact absurd h3 (by decide)
    unfold Layout.processNode
    rw [hn]
    simp only [if_neg hguard, if_neg hred]
    unfold Layout.processCore
    simp only [hnt, if_pos htr]
    constructor
    · split
      · rw [hpar]
        exact Layout.domWrite_emits _ _ _ _ _ _ (by simp)
      · next hfalse => exact absurd (Or.inl trivial) hfalse
    · split
      · rfl
      · next hfalse => exact absurd (Or.inl trivial) hfalse

/-- Claim C4 witness: concrete runs.  A first-sight text node whose
parent DIV is mirrored gets emitted (and not when the parent is an
unmirrored STYLE); removing an undiscovered node is a total no-op; and
removing tracked text with severed parents emits an update record. -/
theorem claim4_text_node_rules_witness :
    ((Layout.processNode
        { nodes := fun r => if r = 2 then
            some { ntype := .textNode, nodeValue := some "hi", parentElement := some 1,
                   parentNode := some 1 }
          else if r = 1 then some { ntype := .elementNode, tagName := "DIV" } else none }
        2 .discover 0 { tracked := [1] }).1.emits ≠ ({ tracked := [1] } : Layout.LState).emits)
    ∧ Layout.processNode
        { nodes := fun r => if r = 9 then some { ntype := .textNode } else none }
        9 .childListRemove 0 {} = ({}, .ok none)
    ∧ (Layout.processNode
        { nodes := fun r => if r = 2 then
            some { ntype := .textNode, nodeValue := some "bye" }
          else none }
        2 .childListRemove 0 { tracked := [2] }).1.emits
      = [{ call := .update, node := 2, parent := none,
           data := { tag := "*T", value := some "bye" }, source := .childListRemove }] := by
  refine ⟨?_, ?_, ?_⟩
  · have h := claim4_text_node_rules.1
      { nodes := fun r => if r = 2 then
          some { ntype := .textNode, nodeValue := some "hi", parentElement := some 1,
                 parentNode := some 1 }
        else if r = 1 then some { ntype := .elementNode, tagName := "DIV" } else none }
      2 { ntype := .textNode, nodeValue := some "hi", parentElement := some 1,
          parentNode := some 1 }
      .discover 0 { tracked := [1] }
      (by decide) (by decide) (by decide) (by decide) (by decide)
    exact h.mpr ⟨1, by decide, by decide, by decide, by decide⟩
  · exact claim4_text_node_rules.2.1
      { nodes := fun r => if r = 9 then some { ntype := .textNode } else none }
      9 0 {} (by decide)
  · have h := claim4_text_node_rules.2.2
      { nodes := fun r => if r = 2 then
          some { ntype := .textNode, nodeValue := some "bye" }
        else none }
      2 { ntype := .textNode, nodeValue := some "bye" }
      0 { tracked := [2] } (by decide) (by decide) (by decide) (by decide) (by decide)
    simpa using h.1

/-- Claim C7: on teardown of an IFRAME with tracked content window and
document, the frame, its content window and its content document are
all unbound, the content document's mutation watcher is disconnected,
the frame and content document leave the tracking maps (no residual
entry references the old content document), the allocation counter is
untouched, so any fresh node — such as a reinserted replacement
iframe — receives a fresh identifier distinct from every previously
assigned one; and the incremental entry point invokes this teardown on
a removal notification for a tracked IFRAME before emitting the removal
record. -/
theorem claim7_iframe_teardown :
    (∀ (f d w : Nat) (s : Layout.LState),
      look s.iframes f = some (some d, some w) →
      f ∉ (Layout.removeObserver f s).bound
      ∧ w ∉ (Layout.removeObserver f s).bound
      ∧ d ∉ (Layout.removeObserver f s).bound
      ∧ d ∉ (Layout.removeObserver f s).observedM
      ∧ look (Layout.removeObserver f s).iframes f = none
      ∧ d ∉ (Layout.removeObserver f s).tracked
      ∧ look (Layout.removeObserver f s).idMap d = none
      ∧ look (Layout.removeObserver f s).store d = none
      ∧ look (Layout.removeObserver f s).idMap f = none
      ∧ (Layout.removeObserver f s).index = s.index)
    ∧ (∀ (f : Nat) (s : Layout.LState) (n : Nat),
      look (Layout.removeObserver f s).idMap n = none →
      (∀ m j, look s.idMap m = some j → j < s.index) →
      (Layout.allocId n (Layout.removeObserver f s)).1 = s.index
      ∧ ∀ m j, look s.idMap m = some j →
          (Layout.allocId n (Layout.removeObserver f s)).1 ≠ j)
    ∧ (∀ (h : Layout.Host) (i : Nat) (n : Layout.HostNode) (ts : Nat) (s : Layout.LState),
      h.nodes i = some n → n.ntype = .elementNode → n.tagName = "IFRAME" → n.svg = false →
      i ∈ s.tracked → h.sameorigin i = false →
      (Layout.processNode h i .childListRemove ts s).1
        = Layout.domWrite .update i (Layout.parentOr n)
            { tag := "IFRAME", attributes := some (Layout.getAttributes n) }
            .childListRemove (Layout.removeObserver i s)) := by
  refine ⟨?teardown, ?fresh, ?dispatch⟩
  case teardown =>
    intro f d w s hlook
    unfold Layout.removeObserver
    simp only [hlook]
    refine ⟨?_, ?_, ?_, ?_, ?_, ?_, ?_, ?_, ?_, ?_⟩
    · simp [Layout.removeIFrame, List.mem_filter]
    · simp [Layout.removeIFrame, List.mem_filter]
    · simp [Layout.removeIFrame, List.mem_filter]
    · simp [Layout.removeIFrame, List.mem_filter]
    · exact look_filter_none _ _ _ (fun v => by simp)
    · simp [Layout.removeIFrame, List.mem_filter]
    · exact look_filter_none _ _ _ (fun v => by simp)
    · exact look_filter_none _ _ _ (fun v => by simp)
    · exact look_filter_none _ _ _ (fun v => by simp)
    · rfl
  case fresh =>
    intro f s n hnone hinv
    have halloc : (Layout.allocId n (Layout.removeObserver f s)).1
        = (Layout.removeObserver f s).index := by
      unfold Layout.allocId
      rw [hnone]
    constructor
    · rw [halloc, removeObserver_index]
    · intro m j hmj
      rw [halloc, removeObserver_index]
      exact (hinv m j hmj).ne'
  case dispatch =>
    intro h i n ts s hn hnt htag hsvg htr hso
    suffices hgen : ∀ source : Layout.Source, source = .childListRemove →
        (Layout.processNode h i source ts s).1
          = Layout.domWrite .update i (Layout.parentOr n)
              { tag := "IFRAME", attributes := some (Layout.getAttributes n) }
              source (Layout.removeObserver i s) by
      exact hgen .childListRemove rfl
    intro source hsource
    have hguard : ¬(source = Layout.Source.childListRemove ∧ i ∉ s.tracked) :=
      fun h2 => h2.2 htr
    have hred : ¬(source ≠ Layout.Source.discover
        ∧ n.ntype = Layout.LNType.textNode ∧ Layout.styleParentB h n = true) := by
      rintro ⟨_, h2, _⟩
      rw [hnt] at h2
      exact absurd h2 (by decide)
    unfold Layout.processNode
    rw [hn]
    simp only [if_neg hguard, if_neg hred]
    unfold Layout.processCore
    simp only [hnt, if_pos htr]
    unfold Layout.processElement
    simp [htag, hsvg, hso, htr, hsource]

/-- Claim C7 witness: a concrete teardown of iframe 10 with content
window 11 and content document 12 clears every reference, and a fresh
node allocates the untouched next id. -/
theorem claim7_iframe_teardown_witness :
    (10 ∉ (Layout.removeObserver 10
        { bound := [10, 11, 12], observedM := [12], tracked := [10, 12],
          idMap := [(10, 1), (12, 2)], index := 3,
          iframes := [(10, (some 12, some 11))] }).bound)
    ∧ look (Layout.removeObserver 10
        { bound := [10, 11, 12], observedM := [12], tracked := [10, 12],
          idMap := [(10, 1), (12, 2)], index := 3,
          iframes := [(10, (some 12, some 11))] }).idMap 12 = none
    ∧ (Layout.allocId 20 (Layout.removeObserver 10
        { bound := [10, 11, 12], observedM := [12], tracked := [10, 12],
          idMap := [(10, 1), (12, 2)], index := 3,
          iframes := [(10, (some 12, some 11))] })).1 = 3 := by
  refine ⟨?_, ?_, ?_⟩
  · exact (claim7_iframe_teardown.1 10 12 11
      { bound := [10, 11, 12], observedM := [12], tracked := [10, 12],
        idMap := [(10, 1), (12, 2)], index := 3,
        iframes := [(10, (some 12, some 11))] } (by decide)).1
  · exact (claim7_iframe_teardown.1 10 12 11
      { bound := [10, 11, 12], observedM := [12], tracked := [10, 12],
        idMap := [(10, 1), (12, 2)], index := 3,
        iframes := [(10, (some 12, some 11))] } (by decide)).2.2.2.2.2.2.1
  · exact (claim7_iframe_teardown.2.1 10
      { bound := [10, 11, 12], observedM := [12], tracked := [10, 12],
        idMap := [(10, 1), (12, 2)], index := 3,
        iframes := [(10, (some 12, some 11))] } 20 (by decide)
      (by
        intro m j hmj
        show j < 3
        by_cases h10 : (10 : Nat) = m
        · simp [look, h10] at hmj
          omega
        · by_cases h12 : (12 : Nat) = m
          · simp [look, h10, h12] at hmj
            omega
          · simp [look, h10, h12] at hmj)).1

/-- Claim C10: the UI-event target resolution returns the first element
of the event's composed path when the composed flag is set, the
composedPath method exists and the path is non-empty, otherwise the
event's target; and (over hosts where a documentElement is never itself
a document) it never returns a Document node — a resolved document is
replaced by its documentElement. -/
theorem claim10_target_resolution :
    (∀ (h : Snap.SnapHost) (evt : Snap.UIEvt) (x : Nat) (rest : List Nat),
      evt.composed = true → evt.hasComposedPath = true → evt.path = x :: rest →
      Snap.targetOf h evt
        = (if h.ntypeOf x = .doc then h.documentElementOf x else some x))
    ∧ (∀ (h : Snap.SnapHost) (evt : Snap.UIEvt),
      (¬(evt.composed = true ∧ evt.hasComposedPath = true) ∨ evt.path = []) →
      Snap.targetOf h evt
        = (if h.ntypeOf evt.target = .doc then h.documentElementOf evt.target
           else some evt.target))
    ∧ (∀ (h : Snap.SnapHost) (evt : Snap.UIEvt),
      (∀ d r, h.documentElementOf d = some r → h.ntypeOf r ≠ .doc) →
      ∀ r, Snap.targetOf h evt = some r → h.ntypeOf r ≠ .doc) := by
  refine ⟨?comp, ?fallb, ?nodoc⟩
  case comp =>
    intro h evt x rest hc hcp hpath
    unfold Snap.targetOf
    simp [hc, hcp, hpath]
  case fallb =>
    intro h evt hyp
    unfold Snap.targetOf
    rcases hyp with hyp | hyp
    · rw [if_neg hyp]
    · by_cases hc : evt.composed = true ∧ evt.hasComposedPath = true
      · simp [hc, hyp]
      · rw [if_neg hc]
  case nodoc =>
    intro h evt hwf r hr
    unfold Snap.targetOf at hr
    set node := (match (if evt.composed ∧ evt.hasComposedPath then some evt.path else none) with
      | some l => if 0 < l.length then l.headD evt.target else evt.target
      | none => evt.target) with hnode
    by_cases hd : h.ntypeOf node = .doc
    · rw [if_pos hd] at hr
      exact hwf node r hr
    · rw [if_neg hd] at hr
      cases hr
      exact hd

/-- Claim C10 witness: on concrete hosts and events, the composed path
head wins, a document target resolves to its documentElement, and the
resolved node is not a document. -/
theorem claim10_target_resolution_witness :
    Snap.targetOf
      { ntypeOf := fun n => if n = 0 then .doc else .element,
        documentElementOf := fun n => if n = 0 then some 1 else none }
      { composed := true, hasComposedPath := true, path := [7, 2], target := 5 } = some 7
    ∧ Snap.targetOf
        { ntypeOf := fun n => if n = 0 then .doc else .element,
          documentElementOf := fun n => if n = 0 then some 1 else none }
        { composed := false, target := 0 } = some 1
    ∧ (∀ r, Snap.targetOf
        { ntypeOf := fun n => if n = 0 then .doc else .element,
          documentElementOf := fun n => if n = 0 then some 1 else none }
        { composed := false, target := 0 } = some r →
        (fun n => if n = 0 then Snap.NType.doc else Snap.NType.element) r ≠ Snap.NType.doc) := by
  refine ⟨?_, ?_, ?_⟩
  · have h := claim10_target_resolution.1
      { ntypeOf := fun n => if n = 0 then .doc else .element,
        documentElementOf := fun n => if n = 0 then some 1 else none }
      { composed := true, hasComposedPath := true, path := [7, 2], target := 5 }
      7 [2] rfl rfl rfl
    simpa using h
  · have h := claim10_target_resolution.2.1
      { ntypeOf := fun n => if n = 0 then .doc else .element,
        documentElementOf := fun n => if n = 0 then some 1 else none }
      { composed := false, target := 0 }
      (Or.inl (by decide))
    simpa using h
  · intro r hr
    exact claim10_target_resolution.2.2
      { ntypeOf := fun n => if n = 0 then .doc else .element,
        documentElementOf := fun n => if n = 0 then some 1 else none }
      { composed := false, target := 0 }
      (by
        intro d rr hdr
        by_cases hd : d = 0
        · subst hd
          simp at hdr
          subst hdr
          decide
        · simp [hd] at hdr)
      r hr

end Clarity
